import Mathlib

/-!
Verification of the tell-js batching-and-delivery core: a shallow embedding of
the bounded-queue `Batcher`, the `runBeforeSend` transform pipeline, the
retrying HTTP transport's status classification and backoff, the facade's
event construction (super-property merge), and the session manager's
context-marker cooldown, together with theorems settling the specification's
claims about them.
-/

namespace TellJs

/-! Transform pipeline (`runBeforeSend`, core/beforeSend)

The source iterates over the pipeline; a `null` result drops the item and no
later function is applied. `Option α` stands for `T | null`. -/

def runBeforeSend {α : Type} (item : α) (fns : List (α → Option α)) : Option α :=
  fns.foldl (fun current fn =>
    match current with
    | none => none
    | some x => fn x) (some item)

/-! Batcher (core/batcher)

`Batcher.add` mirrors the synchronous queue/overflow logic of `add(item)`:
a closed batcher ignores the call; at capacity the oldest item is shifted
off and `onOverflow` fires (counted here); the new item is then pushed.
The auto-flush trigger removes nothing synchronously (removal happens only
after an awaited `send` resolves), so over a run of `add` calls with no
completed flush the queue evolves exactly as below. -/

structure BatcherQ (α : Type) where
  queue : List α
  closed : Bool
  overflowCount : Nat
deriving DecidableEq, Repr

def Batcher.add {α : Type} (maxQueueSize : Nat) (s : BatcherQ α) (item : α) : BatcherQ α :=
  if s.closed then s
  else
    let s1 :=
      if s.queue.length ≥ maxQueueSize then
        { s with queue := s.queue.tail, overflowCount := s.overflowCount + 1 }
      else s
    { s1 with queue := s1.queue ++ [item] }

def Batcher.addAll {α : Type} (maxQueueSize : Nat) (s : BatcherQ α) (items : List α) : BatcherQ α :=
  items.foldl (Batcher.add maxQueueSize) s

/-! `flush()` single-flight guard: `if (this.flushing) return this.flushing`.
`FlushState` captures the synchronous prefix of a `flush()` call, up to the
first suspension inside `send`: `flushing` is whether `this.flushing` is
non-null, and `sendLog` records every `send(batch)` invocation issued. -/

structure FlushState (α : Type) where
  queue : List α
  flushing : Bool
  sendLog : List (List α)
deriving DecidableEq, Repr

def Batcher.flushCall {α : Type} (size : Nat) (s : FlushState α) : FlushState α :=
  if s.flushing then s
  else
    if s.queue.isEmpty then { s with flushing := true }
    else { s with flushing := true, sendLog := s.sendLog ++ [s.queue.take size] }

/-! `doFlush()` as a function of the queue and the success/failure outcome of
each successive `send` call (`ok k` is whether the k-th `send` resolves).
Each iteration takes the front `size` items, and splices them off only when
the send succeeded; a failure returns with the queue untouched.  The JS
`while` loop is driven here by fuel `q.length`, which suffices whenever
`size ≥ 1` (each successful iteration removes at least one item). -/

def Batcher.doFlushGo {α : Type} (size : Nat) (ok : Nat → Bool) :
    Nat → Nat → List α → List α × List (List α)
  | 0, _, q => (q, [])
  | fuel + 1, k, q =>
    if q.isEmpty then (q, [])
    else
      let batch := q.take size
      if ok k then
        let r := Batcher.doFlushGo size ok fuel (k + 1) (q.drop batch.length)
        (r.1, batch :: r.2)
      else (q, [])

def Batcher.doFlush {α : Type} (size : Nat) (ok : Nat → Bool) (q : List α) :
    List α × List (List α) :=
  Batcher.doFlushGo size ok q.length 0 q

/-! HTTP transport retry loop (node/transport and its browser twin)

One fetch attempt either returns an HTTP status, throws a `TypeError`
(DNS/CORS-class local failure), or throws some other error (timeout, socket).
`HttpTransport.send` runs the source's `for (attempt = 0; attempt <= maxRetries)`
loop over a schedule of attempt outcomes and records the observables: whether
the returned promise fulfilled (`resolvedOk`; it rejects only on 413), how
many fetch attempts ran, how many backoff delays were awaited (one before
every attempt except the first), and how often `onError` and
`onPayloadTooLarge` were invoked. -/

inductive Attempt
  | status (code : Nat)
  | typeError
  | netFail
deriving DecidableEq, Repr

def Attempt.isRetryable : Attempt → Bool
  | .status c =>
    if c = 202 then false
    else if c = 207 then false
    else if c = 413 then false
    else if 400 ≤ c ∧ c < 500 then false
    else true
  | .typeError => false
  | .netFail => true

structure SendTrace where
  resolvedOk : Bool
  attempts : Nat
  delays : Nat
  onErrorCount : Nat
  onPTLCount : Nat
deriving DecidableEq, Repr

def sendGo (outcomes : Nat → Attempt) : Nat → Nat → Nat → SendTrace
  | 0, k, errs => ⟨true, k, k - 1, errs + 1, 0⟩
  | fuel + 1, k, errs =>
    match outcomes k with
    | .status c =>
      if c = 202 then ⟨true, k + 1, k, errs, 0⟩
      else if c = 207 then ⟨true, k + 1, k, errs + 1, 0⟩
      else if c = 413 then ⟨false, k + 1, k, errs, 1⟩
      else if 400 ≤ c ∧ c < 500 then ⟨true, k + 1, k, errs + 1, 0⟩
      else sendGo outcomes fuel (k + 1) errs
    | .typeError => ⟨true, k + 1, k, errs + 1, 0⟩
    | .netFail => sendGo outcomes fuel (k + 1) errs

def HttpTransport.send (maxRetries : Nat) (outcomes : Nat → Attempt) : SendTrace :=
  sendGo outcomes (maxRetries + 1) 0 0

/-! Coupling of batcher and transport: the k-th `send(batch)` issued by a
flush succeeds exactly when the transport promise for that call fulfills;
`outcomes k` is the attempt schedule seen by the k-th transport call. -/

def sendResolved (maxRetries : Nat) (outcomes : Nat → Nat → Attempt) (k : Nat) : Bool :=
  (HttpTransport.send maxRetries (outcomes k)).resolvedOk

/-! Backoff before retry attempt `attempt ≥ 1`:
`base = 1000 * 1.5^(attempt-1)`, `jitter = base * 0.2 * random()`,
`delay = min(base + jitter, 30000)`, over exact rationals. -/

def backoffBase (attempt : Nat) : ℚ := 1000 * (3 / 2 : ℚ) ^ (attempt - 1)

def backoffJitter (attempt : Nat) (r : ℚ) : ℚ := backoffBase attempt * (1 / 5) * r

def backoffDelay (attempt : Nat) (r : ℚ) : ℚ :=
  min (backoffBase attempt + backoffJitter attempt r) 30000

/-! Facade event construction (node index, browser facade)

A JS object built by spreading is modelled as an ordered association list in
assignment order; `lookupLast` gives the object-field semantics (the last
assignment to a key wins, exactly what spreading later objects does). -/

inductive Val
  | str (s : String)
  | num (n : Int)
  | nil
deriving DecidableEq, Repr

abbrev Props := List (String × Val)

def lookupLast (ps : Props) (k : String) : Option Val :=
  (ps.reverse.find? (fun p => p.1 == k)).map (fun p => p.2)

def trackEvent (deviceId sessionId userId : String) (ts : Int) (eventName : String)
    (superProps props : Props) : Props :=
  [("type", Val.str "track"), ("event", Val.str eventName),
   ("device_id", Val.str deviceId), ("session_id", Val.str sessionId),
   ("user_id", Val.str userId), ("timestamp", Val.num ts)]
  ++ superProps ++ props

def identifyEvent (deviceId sessionId userId : String) (ts : Int) (traits : Props) : Props :=
  [("type", Val.str "identify"), ("device_id", Val.str deviceId),
   ("session_id", Val.str sessionId), ("user_id", Val.str userId),
   ("timestamp", Val.num ts)]
  ++ traits

def groupEvent (deviceId sessionId userId groupId : String) (ts : Int)
    (superProps props : Props) : Props :=
  [("type", Val.str "group"), ("device_id", Val.str deviceId),
   ("session_id", Val.str sessionId), ("user_id", Val.str userId),
   ("group_id", Val.str groupId), ("timestamp", Val.num ts)]
  ++ superProps ++ props

def revenueEvent (deviceId sessionId userId : String) (ts amount : Int)
    (currency orderId : String) (superProps props : Props) : Props :=
  [("type", Val.str "track"), ("event", Val.str "Order Completed"),
   ("device_id", Val.str deviceId), ("session_id", Val.str sessionId),
   ("user_id", Val.str userId), ("timestamp", Val.num ts)]
  ++ superProps ++ props
  ++ [("order_id", Val.str orderId), ("amount", Val.num amount),
      ("currency", Val.str currency)]

def aliasEvent (deviceId sessionId userId previousId : String) (ts : Int) : Props :=
  [("type", Val.str "alias"), ("device_id", Val.str deviceId),
   ("session_id", Val.str sessionId), ("user_id", Val.str userId),
   ("timestamp", Val.num ts), ("previous_id", Val.str previousId)]

/-! Session-marker cooldown (browser/session, `emitContext`)

`lastContextAt` is keyed by reason; an emission is suppressed when less than
1000 ms have passed since the last emission *with the same reason*.
`processTriggers` runs a sequence of `(now, reason)` calls to `emitContext`
and returns the emitted markers. -/

inductive Reason
  | session_start
  | session_timeout
  | app_foreground
deriving DecidableEq, Repr

def processTriggers : List (Nat × Reason) → (Reason → Nat) → List (Nat × Reason)
  | [], _ => []
  | (t, r) :: rest, lastAt =>
    if t - lastAt r < 1000 then processTriggers rest lastAt
    else (t, r) :: processTriggers rest (fun r2 => if r2 = r then t else lastAt r2)

/-! Helper lemmas: transform pipeline -/

lemma foldl_beforeSend_none {α : Type} (fns : List (α → Option α)) :
    fns.foldl (fun current fn =>
      match current with
      | none => none
      | some x => fn x) (none : Option α) = none := by
  induction fns with
  | nil => rfl
  | cons f fs ih => simpa using ih

lemma runBeforeSend_cons {α : Type} (item : α) (f : α → Option α)
    (fs : List (α → Option α)) :
    runBeforeSend item (f :: fs) =
      match f item with
      | none => none
      | some x => runBeforeSend x fs := by
  show List.foldl _ (f item) fs = _
  cases f item with
  | none => exact foldl_beforeSend_none fs
  | some x => rfl

lemma runBeforeSend_append {α : Type} (item : α) (fs gs : List (α → Option α)) :
    runBeforeSend item (fs ++ gs) =
      match runBeforeSend item fs with
      | none => none
      | some x => runBeforeSend x gs := by
  unfold runBeforeSend
  rw [List.foldl_append]
  cases List.foldl _ (some item) fs with
  | none => exact foldl_beforeSend_none gs
  | some x => rfl

/-- Claim C4: `runBeforeSend` applies the pipeline functions strictly in list order to
the successively transformed item (the cons equation), returns the input
unchanged for the empty list, and short-circuits on drop: once a prefix of the
pipeline yields the drop signal, the overall result is drop no matter what
functions follow — in particular the later functions are never invoked, since
the result does not depend on them. -/
theorem beforeSend_pipeline_order {α : Type} :
    (∀ item : α, runBeforeSend item [] = some item)
    ∧ (∀ (item : α) (f : α → Option α) (fs : List (α → Option α)),
        runBeforeSend item (f :: fs) =
          match f item with
          | none => none
          | some x => runBeforeSend x fs)
    ∧ (∀ (item : α) (fs gs : List (α → Option α)),
        runBeforeSend item fs = none → runBeforeSend item (fs ++ gs) = none) := by
  refine ⟨fun item => rfl, runBeforeSend_cons, fun item fs gs h => ?_⟩
  rw [runBeforeSend_append, h]

theorem beforeSend_pipeline_order_witness :
    runBeforeSend (5 : Nat) [] = some 5
    ∧ runBeforeSend (5 : Nat)
        ([fun x => some (x + 1), fun _ => none] ++ [fun x => some (x * 100)]) = none :=
  ⟨(beforeSend_pipeline_order (α := Nat)).1 5,
   (beforeSend_pipeline_order (α := Nat)).2.2 5
     [fun x => some (x + 1), fun _ => none] [fun x => some (x * 100)] rfl⟩

/-- Claim C1: the single-flight guard of `flush()`.  A `flush()` arriving while a
flush is in progress (`flushing = true`, i.e. `this.flushing` non-null) is a
no-op on the batcher state and issues no `send`: it merely awaits the in-flight
promise.  Consequently two concurrent `flush()` calls racing on a batcher with
a slow `send` (the first send still pending, so `flushing` stays set) produce
exactly one `send` invocation, carrying the pending front-of-queue batch. -/
theorem batcher_single_flight {α : Type} (size : Nat) (s : FlushState α) :
    (s.flushing = true → Batcher.flushCall size s = s)
    ∧ (s.flushing = false → s.queue ≠ [] →
        (Batcher.flushCall size (Batcher.flushCall size s)).sendLog
            = s.sendLog ++ [s.queue.take size]
        ∧ (Batcher.flushCall size (Batcher.flushCall size s)).sendLog.length
            = s.sendLog.length + 1) := by
  constructor
  · intro h
    simp [Batcher.flushCall, h]
  · intro h hq
    have hqe : s.queue.isEmpty = false := by
      cases hs : s.queue with
      | nil => exact absurd hs hq
      | cons a t => simp [hs]
    simp [Batcher.flushCall, h, hqe]

theorem batcher_single_flight_witness :
    (Batcher.flushCall 2 (Batcher.flushCall 2 (⟨[1, 2, 3], false, []⟩ : FlushState Nat))).sendLog
        = [[1, 2]]
    ∧ (Batcher.flushCall 2 (Batcher.flushCall 2 (⟨[1, 2, 3], false, []⟩ : FlushState Nat))).sendLog.length
        = 1 :=
  (batcher_single_flight 2 (⟨[1, 2, 3], false, []⟩ : FlushState Nat)).2 rfl (by decide)

/-! Helper lemmas: batcher flush loop -/

lemma take_append_drop_len {α : Type} (size : Nat) (q : List α) :
    q.take size ++ q.drop ((q.take size).length) = q := by
  rcases le_or_lt size q.length with h | h
  · rw [List.length_take, Nat.min_eq_left h, List.take_append_drop]
  · rw [List.take_of_length_le (le_of_lt h), List.drop_length, List.append_nil]

lemma doFlushGo_flatten {α : Type} (size : Nat) (ok : Nat → Bool) :
    ∀ (fuel k : Nat) (q : List α),
      (Batcher.doFlushGo size ok fuel k q).2.flatten
          ++ (Batcher.doFlushGo size ok fuel k q).1 = q := by
  intro fuel
  induction fuel with
  | zero => intro k q; simp [Batcher.doFlushGo]
  | succ n ih =>
    intro k q
    by_cases hq : q.isEmpty
    · simp [Batcher.doFlushGo, hq]
    · by_cases hok : ok k
      · have h := ih (k + 1) (q.drop ((q.take size).length))
        simp only [Batcher.doFlushGo, hq, hok, Bool.false_eq_true, if_false, if_true,
          List.flatten_cons]
        rw [List.append_assoc, h]
        exact take_append_drop_len size q
      · simp [Batcher.doFlushGo, hq, hok]

lemma doFlushGo_fail {α : Type} (size : Nat) (ok : Nat → Bool) (k : Nat)
    (hok : ok k = false) (fuel : Nat) (q : List α) :
    Batcher.doFlushGo size ok fuel k q = (q, []) := by
  cases fuel with
  | zero => rfl
  | succ n =>
    by_cases hq : q.isEmpty
    · simp [Batcher.doFlushGo, hq]
    · simp [Batcher.doFlushGo, hq, hok]

lemma doFlushGo_drains {α : Type} (size : Nat) (ok : Nat → Bool) (hsize : 1 ≤ size)
    (hok : ∀ j, ok j = true) :
    ∀ (fuel k : Nat) (q : List α), q.length ≤ fuel →
      (Batcher.doFlushGo size ok fuel k q).1 = [] := by
  intro fuel
  induction fuel with
  | zero =>
    intro k q hq
    rw [List.length_eq_zero.mp (Nat.le_zero.mp hq)]
    rfl
  | succ n ih =>
    intro k q hq
    by_cases hqe : q.isEmpty
    · simp [Batcher.doFlushGo, hqe, List.isEmpty_iff.mp hqe]
    · have hq1 : 1 ≤ q.length := by
        cases hl : q with
        | nil => rw [hl] at hqe; simp at hqe
        | cons a t => simp [hl]
      simp only [Batcher.doFlushGo, hqe, hok k, Bool.false_eq_true, if_false, if_true]
      apply ih
      rw [List.length_drop, List.length_take]
      have : 1 ≤ min size q.length := le_min hsize hq1
      omega

/-- Claim C2: a flush's `doFlush` loop, driven by the per-send outcomes `ok`,
delivers the queue's items in FIFO enqueue order with no duplication and no
loss: the concatenation of the sent batches followed by the remaining queue is
exactly the original queue; a send failure on the first batch leaves the whole
queue (the failed batch at its front) untouched with nothing delivered; when
every send succeeds the queue is fully drained, delivering exactly the
original items in order; hence a flush whose send rejects followed by a flush
whose sends succeed delivers every item exactly once in enqueue order. -/
theorem batcher_fifo_no_loss {α : Type} (size : Nat) (ok : Nat → Bool) (q : List α)
    (hsize : 1 ≤ size) :
    ((Batcher.doFlush size ok q).2.flatten ++ (Batcher.doFlush size ok q).1 = q)
    ∧ (ok 0 = false → Batcher.doFlush size ok q = (q, []))
    ∧ ((∀ k, ok k = true) →
        (Batcher.doFlush size ok q).1 = []
        ∧ (Batcher.doFlush size ok q).2.flatten = q)
    ∧ (Batcher.doFlush size (fun _ => true)
        (Batcher.doFlush size (fun _ => false) q).1).2.flatten = q := by
  refine ⟨doFlushGo_flatten size ok q.length 0 q, ?_, ?_, ?_⟩
  · intro h0
    exact doFlushGo_fail size ok 0 h0 q.length q
  · intro hall
    have h1 : (Batcher.doFlush size ok q).1 = [] :=
      doFlushGo_drains size ok hsize hall q.length 0 q le_rfl
    have h2 : (Batcher.doFlush size ok q).2.flatten ++ (Batcher.doFlush size ok q).1 = q :=
      doFlushGo_flatten size ok q.length 0 q
    rw [h1, List.append_nil] at h2
    exact ⟨h1, h2⟩
  · have hfail : Batcher.doFlush size (fun _ => false) q = (q, []) :=
      doFlushGo_fail size (fun _ => false) 0 rfl q.length q
    rw [hfail]
    have h1 : (Batcher.doFlush size (fun _ => true) q).1 = [] :=
      doFlushGo_drains size (fun _ => true) hsize (fun _ => rfl) q.length 0 q le_rfl
    have h2 : (Batcher.doFlush size (fun _ => true) q).2.flatten
        ++ (Batcher.doFlush size (fun _ => true) q).1 = q :=
      doFlushGo_flatten size (fun _ => true) q.length 0 q
    rwa [h1, List.append_nil] at h2

theorem batcher_fifo_no_loss_witness :
    (Batcher.doFlush 2 (fun _ => false) [1, 2, 3] = ([1, 2, 3], []))
    ∧ (Batcher.doFlush 2 (fun _ => true)
        (Batcher.doFlush 2 (fun _ => false) [1, 2, 3]).1).2.flatten = [1, 2, 3] :=
  ⟨(batcher_fifo_no_loss 2 (fun _ => false) [1, 2, 3] (by decide)).2.1 rfl,
   (batcher_fifo_no_loss 2 (fun _ => false) [1, 2, 3] (by decide)).2.2.2⟩

/-! Helper lemmas: batcher add/overflow -/

lemma addAll_closed_spec {α : Type} (cap : Nat) (hcap : 1 ≤ cap) (items : List α) :
    ∀ (q : List α) (c : Nat), q.length ≤ cap →
      Batcher.addAll cap ⟨q, false, c⟩ items =
        ⟨(q ++ items).drop (q.length + items.length - cap), false,
         c + (q.length + items.length - cap)⟩ := by
  induction items with
  | nil =>
    intro q c hq
    have h0 : q.length - cap = 0 := by omega
    simp [Batcher.addAll, h0]
  | cons a rest ih =>
    intro q c hq
    have hstep : Batcher.addAll cap ⟨q, false, c⟩ (a :: rest)
        = Batcher.addAll cap (Batcher.add cap ⟨q, false, c⟩ a) rest := rfl
    rw [hstep]
    by_cases hge : cap ≤ q.length
    · have heq : q.length = cap := le_antisymm hq hge
      cases q with
      | nil => simp at heq; omega
      | cons b t =>
        have hcond : cap ≤ t.length + 1 := by simpa using hge
        have hadd : Batcher.add cap ⟨b :: t, false, c⟩ a
            = ⟨t ++ [a], false, c + 1⟩ := by
          simp [Batcher.add, ge_iff_le, hcond]
        rw [hadd]
        have hlen : (t ++ [a]).length = cap := by simp at heq ⊢; omega
        rw [ih (t ++ [a]) (c + 1) (le_of_eq hlen)]
        have e1 : (t ++ [a]).length + rest.length - cap = rest.length := by
          rw [hlen]; omega
        have e2 : (b :: t).length + (a :: rest).length - cap = rest.length + 1 := by
          simp at heq ⊢; omega
        rw [e1, e2]
        have e3 : (b :: t) ++ a :: rest = b :: ((t ++ [a]) ++ rest) := by simp
        rw [e3, List.drop_succ_cons]
        have e4 : c + 1 + rest.length = c + (rest.length + 1) := by omega
        rw [e4]
    · have hlt : q.length < cap := lt_of_not_le hge
      have hadd : Batcher.add cap ⟨q, false, c⟩ a
          = ⟨q ++ [a], false, c⟩ := by
        simp [Batcher.add, ge_iff_le, hge]
      rw [hadd]
      rw [ih (q ++ [a]) c (by simp; omega)]
      have e1 : (q ++ [a]).length + rest.length = q.length + (a :: rest).length := by
        simp; omega
      have e2 : (q ++ [a]) ++ rest = q ++ a :: rest := by simp
      rw [e1, e2]

/-- Claim C3 counterexample: with `maxQueueSize = 0` the claim fails — a single
`add` on an empty open batcher first runs the eviction branch (the empty
queue's `shift()` is a no-op, `onOverflow` still fires) and then pushes the
item, so the queue afterwards holds 1 item where the claim requires
`min(1, 0) = 0` items and a length never exceeding the cap of 0. -/
theorem batcher_cap_zero_counterexample :
    (Batcher.addAll 0 (⟨[], false, 0⟩ : BatcherQ Nat) [1]).queue = [1]
    ∧ ¬ ((Batcher.addAll 0 (⟨[], false, 0⟩ : BatcherQ Nat) [1]).queue.length ≤ 0) := by
  decide

/-- Claim C3 (amended): for every `maxQueueSize ≥ 1`, a sequence of `n` `add` calls
on a fresh open batcher with no intervening flush leaves the queue holding
exactly the most recent `min(n, maxQueueSize)` items in enqueue order (oldest
evicted first), the queue length never exceeds `maxQueueSize` after any prefix
of the adds, and `onOverflow` fires exactly `max(0, n - maxQueueSize)` times;
with `maxQueueSize = 3`, adding `[1,2,3,4,5]` leaves `[3,4,5]` and fires
`onOverflow` exactly twice.  (For `maxQueueSize = 0` the code keeps one item,
exceeding the cap.) -/
theorem batcher_overflow_drop_oldest {α : Type} (cap : Nat) (items : List α)
    (hcap : 1 ≤ cap) :
    (Batcher.addAll cap ⟨[], false, 0⟩ items).queue = items.drop (items.length - cap)
    ∧ (Batcher.addAll cap ⟨[], false, 0⟩ items).queue.length = min items.length cap
    ∧ (Batcher.addAll cap ⟨[], false, 0⟩ items).overflowCount = items.length - cap
    ∧ (∀ i : Nat, (Batcher.addAll cap ⟨[], false, 0⟩ (items.take i)).queue.length ≤ cap)
    ∧ (Batcher.addAll 3 (⟨[], false, 0⟩ : BatcherQ Nat) [1, 2, 3, 4, 5]).queue = [3, 4, 5]
    ∧ (Batcher.addAll 3 (⟨[], false, 0⟩ : BatcherQ Nat) [1, 2, 3, 4, 5]).overflowCount = 2 := by
  have hmain := addAll_closed_spec cap hcap items [] 0 (by simp)
  have hq : (Batcher.addAll cap ⟨[], false, 0⟩ items).queue
      = items.drop (items.length - cap) := by rw [hmain]; simp
  have hc : (Batcher.addAll cap ⟨[], false, 0⟩ items).overflowCount
      = items.length - cap := by rw [hmain]; simp
  refine ⟨hq, ?_, hc, ?_, by decide, by decide⟩
  · rw [hq, List.length_drop]; omega
  · intro i
    have h := addAll_closed_spec cap hcap (items.take i) [] 0 (by simp)
    rw [h]
    simp only [List.nil_append, List.length_drop]
    omega

theorem batcher_overflow_drop_oldest_witness :
    (Batcher.addAll 3 (⟨[], false, 0⟩ : BatcherQ Nat) [1, 2, 3, 4, 5]).queue = [3, 4, 5]
    ∧ (Batcher.addAll 3 (⟨[], false, 0⟩ : BatcherQ Nat) [1, 2, 3, 4, 5]).overflowCount = 2 :=
  ⟨(batcher_overflow_drop_oldest 3 [1, 2, 3, 4, 5] (by decide)).2.2.2.2.1,
   (batcher_overflow_drop_oldest 3 [1, 2, 3, 4, 5] (by decide)).2.2.2.2.2⟩

/-! Helper lemmas: transport retry loop -/

lemma sendGo_status (outcomes : Nat → Attempt) (fuel k errs c : Nat)
    (h : outcomes k = .status c) :
    sendGo outcomes (fuel + 1) k errs =
      if c = 202 then ⟨true, k + 1, k, errs, 0⟩
      else if c = 207 then ⟨true, k + 1, k, errs + 1, 0⟩
      else if c = 413 then ⟨false, k + 1, k, errs, 1⟩
      else if 400 ≤ c ∧ c < 500 then ⟨true, k + 1, k, errs + 1, 0⟩
      else sendGo outcomes fuel (k + 1) errs := by
  simp only [sendGo, h]

lemma sendGo_typeError (outcomes : Nat → Attempt) (fuel k errs : Nat)
    (h : outcomes k = .typeError) :
    sendGo outcomes (fuel + 1) k errs = ⟨true, k + 1, k, errs + 1, 0⟩ := by
  simp only [sendGo, h]

lemma sendGo_netFail (outcomes : Nat → Attempt) (fuel k errs : Nat)
    (h : outcomes k = .netFail) :
    sendGo outcomes (fuel + 1) k errs = sendGo outcomes fuel (k + 1) errs := by
  simp only [sendGo, h]

lemma sendGo_retry (outcomes : Nat → Attempt) (fuel k errs : Nat)
    (h : (outcomes k).isRetryable = true) :
    sendGo outcomes (fuel + 1) k errs = sendGo outcomes fuel (k + 1) errs := by
  cases ho : outcomes k with
  | status c =>
    rw [ho] at h
    rw [sendGo_status outcomes fuel k errs c ho]
    unfold Attempt.isRetryable at h
    split_ifs at h ⊢ <;> simp_all
  | typeError => rw [ho] at h; simp [Attempt.isRetryable] at h
  | netFail => exact sendGo_netFail outcomes fuel k errs ho

lemma sendGo_413 (outcomes : Nat → Attempt) (fuel k errs : Nat)
    (h : outcomes k = .status 413) :
    sendGo outcomes (fuel + 1) k errs = ⟨false, k + 1, k, errs, 1⟩ := by
  rw [sendGo_status outcomes fuel k errs 413 h]
  norm_num

lemma sendGo_4xx (outcomes : Nat → Attempt) (fuel k errs : Nat) (c : Nat)
    (h : outcomes k = .status c) (h4 : 400 ≤ c) (h5 : c < 500) (h13 : c ≠ 413) :
    sendGo outcomes (fuel + 1) k errs = ⟨true, k + 1, k, errs + 1, 0⟩ := by
  rw [sendGo_status outcomes fuel k errs c h]
  have h202 : c ≠ 202 := by omega
  have h207 : c ≠ 207 := by omega
  simp [h202, h207, h13, h4, h5]

lemma sendGo_first413 (outcomes : Nat → Attempt) :
    ∀ (m : Nat), ∀ (fuel k errs : Nat), m < fuel →
      (∀ j, j < m → (outcomes (k + j)).isRetryable = true) →
      outcomes (k + m) = .status 413 →
      sendGo outcomes fuel k errs = ⟨false, k + m + 1, k + m, errs, 1⟩ := by
  intro m
  induction m with
  | zero =>
    intro fuel k errs hm hr h413
    cases fuel with
    | zero => omega
    | succ n =>
      rw [sendGo_413 outcomes n k errs (by simpa using h413)]
      norm_num
  | succ m ih =>
    intro fuel k errs hm hr h413
    cases fuel with
    | zero => omega
    | succ n =>
      rw [sendGo_retry outcomes n k errs (by simpa using hr 0 (Nat.succ_pos m))]
      have h413' : outcomes (k + 1 + m) = .status 413 := by
        have e : k + 1 + m = k + (m + 1) := by omega
        rw [e]; exact h413
      have hr' : ∀ j, j < m → (outcomes (k + 1 + j)).isRetryable = true := by
        intro j hj
        have e : k + 1 + j = k + (j + 1) := by omega
        rw [e]
        exact hr (j + 1) (by omega)
      rw [ih n (k + 1) errs (by omega) hr' h413']
      have e1 : k + 1 + m + 1 = k + (m + 1) + 1 := by omega
      have e2 : k + 1 + m = k + (m + 1) := by omega
      rw [e1, e2]

lemma sendGo_attempts_le (outcomes : Nat → Attempt) :
    ∀ (fuel k errs : Nat), (sendGo outcomes fuel k errs).attempts ≤ k + fuel := by
  intro fuel
  induction fuel with
  | zero => intro k errs; simp [sendGo]
  | succ n ih =>
    intro k errs
    cases ho : outcomes k with
    | status c =>
      rw [sendGo_status outcomes n k errs c ho]
      split_ifs <;>
        first
          | (show k + 1 ≤ k + (n + 1); omega)
          | exact le_trans (ih (k + 1) errs) (by omega)
    | typeError =>
      rw [sendGo_typeError outcomes n k errs ho]
      show k + 1 ≤ k + (n + 1)
      omega
    | netFail =>
      rw [sendGo_netFail outcomes n k errs ho]
      exact le_trans (ih (k + 1) errs) (by omega)

lemma sendGo_delays_eq (outcomes : Nat → Attempt) :
    ∀ (fuel k errs : Nat),
      (sendGo outcomes fuel k errs).delays = (sendGo outcomes fuel k errs).attempts - 1 := by
  intro fuel
  induction fuel with
  | zero => intro k errs; simp [sendGo]
  | succ n ih =>
    intro k errs
    cases ho : outcomes k with
    | status c =>
      rw [sendGo_status outcomes n k errs c ho]
      split_ifs <;> first | rfl | exact ih (k + 1) errs
    | typeError =>
      rw [sendGo_typeError outcomes n k errs ho]
      rfl
    | netFail =>
      rw [sendGo_netFail outcomes n k errs ho]
      exact ih (k + 1) errs

/-- Claim C5: when an attempt of a transport send receives HTTP 413 (all earlier
attempts, if any, having been retryable 5xx/network failures), the loop stops
without retrying (total attempts = that attempt's index + 1), invokes
`onPayloadTooLarge` exactly once over the whole send call, reports nothing
through `onError`, and the send promise rejects (`resolvedOk = false`); a
batcher flushing into such a rejecting transport removes nothing — its queue
still contains every item of the failed batch, in place. -/
theorem transport_413_no_retry_no_drain {α : Type} (maxRetries k : Nat)
    (outcomes : Nat → Attempt) (size : Nat) (q : List α)
    (hk : k ≤ maxRetries)
    (h413 : outcomes k = .status 413)
    (hpre : ∀ j, j < k → (outcomes j).isRetryable = true) :
    HttpTransport.send maxRetries outcomes = ⟨false, k + 1, k, 0, 1⟩
    ∧ Batcher.doFlush size
        (sendResolved maxRetries (fun _ => outcomes)) q = (q, []) := by
  have hsend : HttpTransport.send maxRetries outcomes = ⟨false, k + 1, k, 0, 1⟩ := by
    have := sendGo_first413 outcomes k (maxRetries + 1) 0 0 (by omega)
      (fun j hj => by simpa using hpre j hj) (by simpa using h413)
    simpa [HttpTransport.send] using this
  refine ⟨hsend, ?_⟩
  have hok : sendResolved maxRetries (fun _ => outcomes) 0 = false := by
    simp [sendResolved, hsend]
  exact doFlushGo_fail size _ 0 hok q.length q

theorem transport_413_no_retry_no_drain_witness :
    HttpTransport.send 3 (fun _ => Attempt.status 413) = ⟨false, 1, 0, 0, 1⟩
    ∧ Batcher.doFlush 2
        (sendResolved 3 (fun _ _ => Attempt.status 413)) [1, 2, 3] = ([1, 2, 3], []) :=
  transport_413_no_retry_no_drain 3 0 (fun _ => Attempt.status 413) 2 [1, 2, 3]
    (by omega) rfl (fun j hj => absurd hj (by omega))

/-- Claim C6 counterexample: the claim says a 401 (and any other non-413 4xx) leaves
the calling batcher's queue non-drained, but the transport catches its own
`NetworkError` for those statuses, reports it via `onError` and `return`s, so
the send promise fulfills; the batcher then treats the batch as delivered.
Concretely: with every attempt answering 401, the send resolves
(`resolvedOk = true`, one attempt, one `onError` report), and a flush of
`[0, 1, 2]` through that transport empties the queue. -/
theorem transport_4xx_drain_counterexample :
    HttpTransport.send 3 (fun _ => Attempt.status 401) = ⟨true, 1, 0, 1, 0⟩
    ∧ (Batcher.doFlush 2 (sendResolved 3 (fun _ _ => Attempt.status 401))
        [0, 1, 2] : List Nat × List (List Nat)).1 = [] := by
  constructor
  · rfl
  · decide

/-- Claim C6 (amended): a transport send whose first attempt receives HTTP 401, or
any other 4xx status except 413, does not retry (exactly one attempt) and
reports the failure through the error callback exactly once — but the send
*resolves* rather than rejecting, so the calling batcher treats the batch as
delivered: the flush drains the queue instead of leaving the failed batch
queued. -/
theorem transport_4xx_no_retry_resolves {α : Type} (maxRetries : Nat)
    (outcomes : Nat → Nat → Attempt) (c : Nat) (size : Nat) (q : List α)
    (hsize : 1 ≤ size)
    (h4 : 400 ≤ c) (h5 : c < 500) (h13 : c ≠ 413)
    (h : ∀ k0, outcomes k0 0 = .status c) :
    (∀ k0, HttpTransport.send maxRetries (outcomes k0) = ⟨true, 1, 0, 1, 0⟩)
    ∧ (Batcher.doFlush size (sendResolved maxRetries outcomes) q).1 = [] := by
  have hsend : ∀ k0, HttpTransport.send maxRetries (outcomes k0) = ⟨true, 1, 0, 1, 0⟩ := by
    intro k0
    have := sendGo_4xx (outcomes k0) maxRetries 0 0 c (h k0) h4 h5 h13
    simpa [HttpTransport.send] using this
  refine ⟨hsend, ?_⟩
  have hok : ∀ k0, sendResolved maxRetries outcomes k0 = true := by
    intro k0
    simp [sendResolved, hsend k0]
  exact doFlushGo_drains size _ hsize hok q.length 0 q le_rfl

theorem transport_4xx_no_retry_resolves_witness :
    HttpTransport.send 3 (fun _ => Attempt.status 404) = ⟨true, 1, 0, 1, 0⟩
    ∧ (Batcher.doFlush 2 (sendResolved 3 (fun _ _ => Attempt.status 404))
        [0, 1, 2] : List Nat × List (List Nat)).1 = [] :=
  have h := transport_4xx_no_retry_resolves 3 (fun _ _ => Attempt.status 404) 404 2
    ([0, 1, 2] : List Nat) (by omega) (by omega) (by omega) (by omega) (fun _ => rfl)
  ⟨h.1 0, h.2⟩

/-- Claim C7 counterexample: the source computes the jitter as 20% of the *scaled*
backoff base `1000 * 1.5^(attempt-1)`, not of the constant 1000 ms.  At retry
attempt 2 with the random draw 0.9 the jitter is 270 ms > 200 ms, and the
resulting delay 1770 ms exceeds the claim's bound
`1000 * 1.5^(attempt-1) + 200 = 1700 ms`. -/
theorem backoff_jitter_counterexample :
    backoffDelay 2 (9 / 10) = 1770
    ∧ ¬ backoffJitter 2 (9 / 10) ≤ 200
    ∧ ¬ backoffDelay 2 (9 / 10) ≤ 1000 * (3 / 2 : ℚ) ^ (2 - 1) + 200 := by
  norm_num [backoffDelay, backoffJitter, backoffBase]

/-- Claim C7 (amended): every transport send performs at most `maxRetries + 1`
attempts, with a backoff delay before every attempt except the first (the
number of delays is always attempts − 1, so no delay precedes the first
attempt); the delay before retry attempt `attempt ≥ 1` is
`min(base * 1.5^(attempt-1) + jitter, 30000 ms)` with `base = 1000 ms`, where
the randomized jitter satisfies `0 ≤ jitter ≤ 20% * (base * 1.5^(attempt-1))`
— i.e. the jitter is up to 20% of the scaled backoff term, not of the 1000 ms
constant. -/
theorem backoff_bounds (maxRetries : Nat) (outcomes : Nat → Attempt)
    (attempt : Nat) (r : ℚ) (hr0 : 0 ≤ r) (hr1 : r ≤ 1) :
    (HttpTransport.send maxRetries outcomes).attempts ≤ maxRetries + 1
    ∧ (HttpTransport.send maxRetries outcomes).delays
        = (HttpTransport.send maxRetries outcomes).attempts - 1
    ∧ 0 ≤ backoffJitter attempt r
    ∧ backoffJitter attempt r ≤ (1 / 5) * backoffBase attempt
    ∧ backoffDelay attempt r ≤ 30000
    ∧ (backoffBase attempt + backoffJitter attempt r ≤ 30000 →
        backoffDelay attempt r
          = 1000 * (3 / 2 : ℚ) ^ (attempt - 1) + backoffJitter attempt r) := by
  have hbase : 0 ≤ backoffBase attempt := by
    unfold backoffBase
    positivity
  refine ⟨?_, sendGo_delays_eq outcomes (maxRetries + 1) 0 0, ?_, ?_, min_le_right _ _, ?_⟩
  · simpa using sendGo_attempts_le outcomes (maxRetries + 1) 0 0
  · unfold backoffJitter
    positivity
  · unfold backoffJitter
    calc backoffBase attempt * (1 / 5) * r
        ≤ backoffBase attempt * (1 / 5) * 1 := by
          apply mul_le_mul_of_nonneg_left hr1
          positivity
      _ = (1 / 5) * backoffBase attempt := by ring
  · intro hle
    rw [backoffDelay, min_eq_left hle, backoffBase]

theorem backoff_bounds_witness :
    (HttpTransport.send 3 (fun _ => Attempt.status 500)).attempts ≤ 4
    ∧ 0 ≤ backoffJitter 2 (1 / 2)
    ∧ backoffJitter 2 (1 / 2) ≤ (1 / 5) * backoffBase 2 :=
  have h := backoff_bounds 3 (fun _ => Attempt.status 500) 2 (1 / 2)
    (by norm_num) (by norm_num)
  ⟨h.1, h.2.2.1, h.2.2.2.1⟩

/-! Helper lemmas: object-spread lookup -/

lemma lookupLast_append_some (xs ys : Props) (k : String) (v : Val)
    (h : lookupLast ys k = some v) : lookupLast (xs ++ ys) k = some v := by
  unfold lookupLast at h ⊢
  rw [List.reverse_append, List.find?_append]
  cases hf : ys.reverse.find? (fun p => p.1 == k) with
  | none => rw [hf] at h; simp at h
  | some p =>
    rw [hf] at h
    simp only [Option.or_some]
    exact h

lemma lookupLast_append_none (xs ys : Props) (k : String)
    (h : lookupLast ys k = none) : lookupLast (xs ++ ys) k = lookupLast xs k := by
  unfold lookupLast at h ⊢
  rw [List.reverse_append, List.find?_append]
  cases hf : ys.reverse.find? (fun p => p.1 == k) with
  | none => simp
  | some p => rw [hf] at h; simp at h

/-- Claim C8 counterexample: the claim quantifies over all event-producing facade
calls, but `identify` builds its event from the built-in fields and the caller
traits only — the registered super-properties are not spread in (and `alias`
spreads no properties at all).  With super-properties `{env: "prod"}`
registered, an `identify` call with empty traits yields an event with no `env`
field. -/
theorem superprops_identify_counterexample :
    lookupLast [("env", Val.str "prod")] "env" = some (Val.str "prod")
    ∧ lookupLast (identifyEvent "d" "s" "u" 5 []) "env" = none := by
  constructor
  · rfl
  · rfl

/-- Claim C8 (amended): `track`, `group` and `revenue` merge every currently
registered super-property into the outgoing event, with event-specific
properties winning on key collision (and `revenue`'s fixed
`order_id`/`amount`/`currency` fields appended last, overriding both); after
`register({env: "prod"})`, `track` with `{env: "staging"}` yields an event
whose `env` is `"staging"`.  `identify` and `alias` do not include
super-properties: an `identify` event carries only its built-in fields and the
caller traits, and an `alias` event only its built-in fields. -/
theorem superprops_merge (d s u g pid cur oid : String) (ts amt : Int)
    (name : String) (sup props traits : Props) (k : String) (v : Val) :
    (lookupLast props k = some v →
        lookupLast (trackEvent d s u ts name sup props) k = some v
        ∧ lookupLast (groupEvent d s u g ts sup props) k = some v)
    ∧ (lookupLast props k = none → lookupLast sup k = some v →
        lookupLast (trackEvent d s u ts name sup props) k = some v
        ∧ lookupLast (groupEvent d s u g ts sup props) k = some v)
    ∧ (k ≠ "order_id" → k ≠ "amount" → k ≠ "currency" →
        lookupLast props k = some v →
        lookupLast (revenueEvent d s u ts amt cur oid sup props) k = some v)
    ∧ (k ≠ "order_id" → k ≠ "amount" → k ≠ "currency" →
        lookupLast props k = none → lookupLast sup k = some v →
        lookupLast (revenueEvent d s u ts amt cur oid sup props) k = some v)
    ∧ (lookupLast traits k = none → k ≠ "type" → k ≠ "device_id" →
        k ≠ "session_id" → k ≠ "user_id" → k ≠ "timestamp" →
        lookupLast (identifyEvent d s u ts traits) k = none)
    ∧ (k ≠ "type" → k ≠ "device_id" → k ≠ "session_id" → k ≠ "user_id" →
        k ≠ "timestamp" → k ≠ "previous_id" →
        lookupLast (aliasEvent d s u pid ts) k = none)
    ∧ lookupLast (trackEvent d s u ts name [("env", Val.str "prod")]
        [("env", Val.str "staging")]) "env" = some (Val.str "staging") := by
  have htail : ∀ (h1 : k ≠ "order_id") (h2 : k ≠ "amount") (h3 : k ≠ "currency"),
      lookupLast [("order_id", Val.str oid), ("amount", Val.num amt),
        ("currency", Val.str cur)] k = none := by
    intro h1 h2 h3
    have b1 : ("order_id" == k) = false := beq_eq_false_iff_ne.mpr (Ne.symm h1)
    have b2 : ("amount" == k) = false := beq_eq_false_iff_ne.mpr (Ne.symm h2)
    have b3 : ("currency" == k) = false := beq_eq_false_iff_ne.mpr (Ne.symm h3)
    simp [lookupLast, List.find?, b1, b2, b3]
  refine ⟨?_, ?_, ?_, ?_, ?_, ?_, ?_⟩
  · intro h
    exact ⟨lookupLast_append_some _ _ _ _ h, lookupLast_append_some _ _ _ _ h⟩
  · intro hp hs
    constructor
    · rw [trackEvent, lookupLast_append_none _ _ _ hp]
      exact lookupLast_append_some _ _ _ _ hs
    · rw [groupEvent, lookupLast_append_none _ _ _ hp]
      exact lookupLast_append_some _ _ _ _ hs
  · intro h1 h2 h3 hp
    rw [revenueEvent, lookupLast_append_none _ _ _ (htail h1 h2 h3)]
    exact lookupLast_append_some _ _ _ _ hp
  · intro h1 h2 h3 hp hs
    rw [revenueEvent, lookupLast_append_none _ _ _ (htail h1 h2 h3),
      lookupLast_append_none _ _ _ hp]
    exact lookupLast_append_some _ _ _ _ hs
  · intro ht k1 k2 k3 k4 k5
    rw [identifyEvent, lookupLast_append_none _ _ _ ht]
    have b1 : ("type" == k) = false := beq_eq_false_iff_ne.mpr (Ne.symm k1)
    have b2 : ("device_id" == k) = false := beq_eq_false_iff_ne.mpr (Ne.symm k2)
    have b3 : ("session_id" == k) = false := beq_eq_false_iff_ne.mpr (Ne.symm k3)
    have b4 : ("user_id" == k) = false := beq_eq_false_iff_ne.mpr (Ne.symm k4)
    have b5 : ("timestamp" == k) = false := beq_eq_false_iff_ne.mpr (Ne.symm k5)
    simp [lookupLast, List.find?, b1, b2, b3, b4, b5]
  · intro k1 k2 k3 k4 k5 k6
    have b1 : ("type" == k) = false := beq_eq_false_iff_ne.mpr (Ne.symm k1)
    have b2 : ("device_id" == k) = false := beq_eq_false_iff_ne.mpr (Ne.symm k2)
    have b3 : ("session_id" == k) = false := beq_eq_false_iff_ne.mpr (Ne.symm k3)
    have b4 : ("user_id" == k) = false := beq_eq_false_iff_ne.mpr (Ne.symm k4)
    have b5 : ("timestamp" == k) = false := beq_eq_false_iff_ne.mpr (Ne.symm k5)
    have b6 : ("previous_id" == k) = false := beq_eq_false_iff_ne.mpr (Ne.symm k6)
    simp [aliasEvent, lookupLast, List.find?, b1, b2, b3, b4, b5, b6]
  · exact lookupLast_append_some _ _ _ _ rfl

theorem superprops_merge_witness :
    lookupLast (trackEvent "d" "s" "u" 7 "n" [("env", Val.str "prod")]
        [("env", Val.str "staging")]) "env" = some (Val.str "staging")
    ∧ lookupLast (identifyEvent "d" "s" "u" 7 []) "env" = none :=
  have h := superprops_merge "d" "s" "u" "g" "p" "USD" "o1" 7 3 "n"
    [("env", Val.str "prod")] [("env", Val.str "staging")] [] "env" (Val.str "staging")
  ⟨(h.1 rfl).1,
   h.2.2.2.2.1 rfl (by decide) (by decide) (by decide) (by decide) (by decide)⟩

/-- Claim C10: because super-properties and caller-supplied properties are spread
flat onto the event object after its built-in fields, any property binding for
a reserved field name (type, event, device_id, session_id, user_id,
timestamp) silently overrides the facade-assigned value — in particular,
`track` with properties `{timestamp: 0}` produces an event whose `timestamp`
is `0`, not the construction time. -/
theorem reserved_key_override (d s u : String) (ts : Int) (name : String)
    (sup props : Props) (k : String) (v : Val)
    (h : lookupLast props k = some v) :
    lookupLast (trackEvent d s u ts name sup props) k = some v
    ∧ lookupLast (trackEvent "d" "s" "u" 123 "n" [] [("timestamp", Val.num 0)])
        "timestamp" = some (Val.num 0) :=
  ⟨lookupLast_append_some _ _ _ _ h, lookupLast_append_some _ _ _ _ rfl⟩

theorem reserved_key_override_witness :
    lookupLast (trackEvent "d" "s" "u" 123 "n" [] [("timestamp", Val.num 0)])
        "timestamp" = some (Val.num 0) :=
  (reserved_key_override "d" "s" "u" 123 "n" [] [("timestamp", Val.num 0)]
    "timestamp" (Val.num 0) rfl).1

/-! Helper lemmas: session-marker cooldown -/

lemma processTriggers_mem_ge (l : List (Nat × Reason)) :
    ∀ (lastAt : Reason → Nat) (p : Nat × Reason), p ∈ processTriggers l lastAt →
      lastAt p.2 + 1000 ≤ p.1 := by
  induction l with
  | nil => intro lastAt p h; simp [processTriggers] at h
  | cons tr rest ih =>
    intro lastAt p h
    obtain ⟨t, r⟩ := tr
    by_cases hc : t - lastAt r < 1000
    · rw [processTriggers, if_pos hc] at h
      exact ih lastAt p h
    · rw [processTriggers, if_neg hc] at h
      rcases List.mem_cons.mp h with h | h
      · subst h
        simp only
        omega
      · have hm := ih _ p h
        by_cases hr : p.2 = r
        · rw [hr, if_pos rfl] at hm
          rw [hr]
          omega
        · rwa [if_neg hr] at hm

/-- Claim C9 counterexample: the cooldown map `lastContextAt` is keyed by reason, so
markers with *different* reasons are not deduplicated against each other: a
`session_start` marker at t = 10000 followed by an `app_foreground` trigger at
t = 10500 produces two session-marker emissions only 500 ms (< 1 s) apart,
violating the claim that no two emissions occur less than 1 second apart. -/
theorem session_cooldown_counterexample :
    processTriggers [(10000, Reason.session_start), (10500, Reason.app_foreground)]
        (fun _ => 0)
      = [(10000, Reason.session_start), (10500, Reason.app_foreground)]
    ∧ 10500 - 10000 < 1000 := by
  constructor
  · rfl
  · omega

/-- Claim C9 (amended): the 1-second cooldown deduplicates session markers *per
reason*: in any sequence of `emitContext` calls (arbitrary trigger times and
reasons, arbitrary initial cooldown map), any two emitted markers carrying the
same reason are at least 1000 ms apart (the earlier emission's time plus 1000
is at most the later emission's time).  Markers with different reasons may be
emitted within the window, as the counterexample shows. -/
theorem session_cooldown_per_reason (l : List (Nat × Reason)) (lastAt : Reason → Nat) :
    List.Pairwise (fun a b => a.2 = b.2 → a.1 + 1000 ≤ b.1)
      (processTriggers l lastAt) := by
  induction l generalizing lastAt with
  | nil => simp [processTriggers]
  | cons tr rest ih =>
    obtain ⟨t, r⟩ := tr
    by_cases hc : t - lastAt r < 1000
    · rw [processTriggers, if_pos hc]
      exact ih lastAt
    · rw [processTriggers, if_neg hc]
      refine List.Pairwise.cons (fun b hb hr => ?_) (ih _)
      have hm := processTriggers_mem_ge rest _ b hb
      rw [← hr, if_pos rfl] at hm
      exact hm

end TellJs
